import Mathlib

/-!
Verification development for the bulk-import reconciliation pipeline of the
IT-assets backend (Express + Mongoose + XLSX).  The definitions below are a
shallow embedding of the JavaScript source, chiefly:

* `asset.controller.js` (`uploadExcel`, `bulkCreateAssets`) — column mapping,
  row normalization, row filtering, batched unordered insertion, report
  construction;
* `asset.validator.js` — the `DEVICES` enum;
* the generic error middleware (`error.middleware`).

JavaScript values are modelled as follows: spreadsheet cells are either
strings or dates (`Cell`, matching `sheet_to_json` with `cellDates: true` and
`defval: ''`); JS string falsiness is the empty string; absent object
properties are `Option.none`.  All strings handled by the pipeline are ASCII,
so `toLowerCase`/`toUpperCase`/`trim` are embedded as the ASCII functions
`lowerStr`/`upperStr`/`trimStr`.
-/

namespace ITAssets

/-- ASCII embedding of JS `String.prototype.toLowerCase` on one character. -/
def lowerChar (c : Char) : Char :=
  if 65 ≤ c.toNat ∧ c.toNat ≤ 90 then Char.ofNat (c.toNat + 32) else c

/-- ASCII embedding of JS `String.prototype.toUpperCase` on one character. -/
def upperChar (c : Char) : Char :=
  if 97 ≤ c.toNat ∧ c.toNat ≤ 122 then Char.ofNat (c.toNat - 32) else c

/-- ASCII embedding of JS `toLowerCase`. -/
def lowerStr (s : String) : String := String.mk (s.data.map lowerChar)

/-- ASCII embedding of JS `toUpperCase` (the Mongoose `uppercase: true`
setter on `serialNumber`). -/
def upperStr (s : String) : String := String.mk (s.data.map upperChar)

/-- Whitespace characters removed by JS `trim` (ASCII subset). -/
def isWs (c : Char) : Bool := c == ' ' || c == '\t' || c == '\n' || c == '\r'

/-- Embedding of JS `String.prototype.trim` at the character-list level. -/
def trimList (l : List Char) : List Char :=
  ((l.dropWhile isWs).reverse.dropWhile isWs).reverse

/-- Embedding of JS `String.prototype.trim`. -/
def trimStr (s : String) : String := String.mk (trimList s.data)

/-- Does `lead` occur at the head of `l`?  Helper for the substring test. -/
def leadMatch : List Char → List Char → Bool
  | [], _ => true
  | _ :: _, [] => false
  | a :: as, b :: bs => a == b && leadMatch as bs

/-- Does `needle` occur contiguously inside `hay`?  Helper for
`strContains`. -/
def occursIn (needle : List Char) : List Char → Bool
  | [] => leadMatch needle []
  | c :: rest => leadMatch needle (c :: rest) || occursIn needle rest

/-- Embedding of JS `String.prototype.includes`. -/
def strContains (hay needle : String) : Bool := occursIn needle.data hay.data

/-- Decimal digit character, as produced by JS `String(n)`. -/
def digitChar : Nat → Char
  | 0 => '0' | 1 => '1' | 2 => '2' | 3 => '3' | 4 => '4'
  | 5 => '5' | 6 => '6' | 7 => '7' | 8 => '8' | _ => '9'

/-- Big-endian decimal digits of `n`, with explicit fuel (the fuel `n + 1`
always suffices, so `digitsBE` is the decimal representation used by
JS `String(n)`). -/
def digitsBEGo : Nat → Nat → List Char
  | 0, _ => []
  | fuel + 1, n =>
    if n < 10 then [digitChar n]
    else digitsBEGo fuel (n / 10) ++ [digitChar (n % 10)]

/-- Big-endian decimal digits of `n` (JS `String(n)` for natural `n`). -/
def digitsBE (n : Nat) : List Char := digitsBEGo (n + 1) n

/-- Embedding of JS `String(n).padStart(w, '0')`: the decimal representation
of `n`, left-padded with zeros to width `w` (never truncated). -/
def padNum (w n : Nat) : String :=
  String.mk (List.replicate (w - (digitsBE n).length) '0' ++ digitsBE n)

/-- A wall-clock instant as exposed by JS `Date#toISOString` (UTC calendar
fields).  `new Date()` values are supplied to the pipeline as parameters. -/
structure Timestamp where
  year : Nat
  month : Nat
  day : Nat
  hour : Nat
  minute : Nat
  second : Nat
deriving DecidableEq, Repr

/-- Field bounds under which `toISOString` renders the fixed-width
`YYYY-MM-DDTHH:MM:SS` layout the serial generator slices. -/
def Timestamp.Valid (t : Timestamp) : Prop :=
  t.year < 10000 ∧ t.month < 100 ∧ t.day < 100 ∧
    t.hour < 100 ∧ t.minute < 100 ∧ t.second < 100

instance (t : Timestamp) : Decidable t.Valid := by
  unfold Timestamp.Valid; infer_instance

/-- `toISOString().slice(0, 10)` with the dashes removed — `YYYYMMDD`. -/
def dateStr (t : Timestamp) : String :=
  padNum 4 t.year ++ padNum 2 t.month ++ padNum 2 t.day

/-- `toISOString().slice(11, 19)` with the colons removed — `HHMMSS`. -/
def timeStr (t : Timestamp) : String :=
  padNum 2 t.hour ++ padNum 2 t.minute ++ padNum 2 t.second

/-- Embedding of the ISO string a Mongoose `String` cast would produce for a
`Date` value (used only for the degenerate case of a date cell sitting in the
serial-number column). -/
def isoString (t : Timestamp) : String :=
  padNum 4 t.year ++ "-" ++ padNum 2 t.month ++ "-" ++ padNum 2 t.day ++ "T" ++
    padNum 2 t.hour ++ ":" ++ padNum 2 t.minute ++ ":" ++ padNum 2 t.second ++ ".000Z"

/-- The auto-generated serial from `uploadExcel`:
`IT-${dateStr}-${timeStr}-${String(index + 1).padStart(4, '0')}`. -/
def genSerial (t : Timestamp) (index : Nat) : String :=
  "IT-" ++ dateStr t ++ "-" ++ timeStr t ++ "-" ++ padNum 4 (index + 1)

/-- A spreadsheet cell as produced by `XLSX.utils.sheet_to_json` with
`cellDates: true` and `defval: ''`: a string (possibly empty) or a date. -/
inductive Cell where
  | str (s : String)
  | date (t : Timestamp)
deriving DecidableEq, Repr

/-- JS truthiness of a cell value: the empty string is the only falsy cell. -/
def truthy : Cell → Bool
  | .str s => !(s == "")
  | .date _ => true

/-- A raw spreadsheet row: ordered header/cell pairs (`Object.keys` order). -/
abbrev RawRow := List (String × Cell)

/-- The canonical schema fields targeted by the column-alias table. -/
inductive Field where
  | serialNumber | companyName | branch | department | userName | brand
  | device | deviceSerialNo | operatingSystem | dateOfPurchase | remark | status
deriving DecidableEq, Repr

/-- The `columnMap` alias table of `uploadExcel` (keys are already lowercase
in the source; lookup happens after `toLowerCase().trim()`). -/
def columnMap : String → Option Field
  | "serialnumber" => some .serialNumber
  | "serial number" => some .serialNumber
  | "serial_number" => some .serialNumber
  | "sn" => some .serialNumber
  | "sr no" => some .serialNumber
  | "sr.no" => some .serialNumber
  | "sr. no" => some .serialNumber
  | "srno" => some .serialNumber
  | "sl no" => some .serialNumber
  | "sl.no" => some .serialNumber
  | "slno" => some .serialNumber
  | "asset id" => some .serialNumber
  | "assetid" => some .serialNumber
  | "asset_id" => some .serialNumber
  | "companyname" => some .companyName
  | "company name" => some .companyName
  | "company" => some .companyName
  | "organization" => some .companyName
  | "org" => some .companyName
  | "firm" => some .companyName
  | "branch" => some .branch
  | "location" => some .branch
  | "site" => some .branch
  | "office" => some .branch
  | "department" => some .department
  | "dept" => some .department
  | "division" => some .department
  | "team" => some .department
  | "username" => some .userName
  | "user name" => some .userName
  | "user" => some .userName
  | "name" => some .userName
  | "employee" => some .userName
  | "employee name" => some .userName
  | "employeename" => some .userName
  | "assigned to" => some .userName
  | "assignedto" => some .userName
  | "assigned" => some .userName
  | "brand" => some .brand
  | "make" => some .brand
  | "manufacturer" => some .brand
  | "vendor" => some .brand
  | "device" => some .device
  | "device type" => some .device
  | "devicetype" => some .device
  | "type" => some .device
  | "asset type" => some .device
  | "assettype" => some .device
  | "equipment" => some .device
  | "category" => some .device
  | "deviceserialno" => some .deviceSerialNo
  | "device serial no" => some .deviceSerialNo
  | "device serial" => some .deviceSerialNo
  | "device_serial" => some .deviceSerialNo
  | "device serial number" => some .deviceSerialNo
  | "deviceserialnumber" => some .deviceSerialNo
  | "equipment serial" => some .deviceSerialNo
  | "equipment serial no" => some .deviceSerialNo
  | "asset serial" => some .deviceSerialNo
  | "asset serial no" => some .deviceSerialNo
  | "serial no" => some .deviceSerialNo
  | "serialno" => some .deviceSerialNo
  | "product serial" => some .deviceSerialNo
  | "device s.no" => some .deviceSerialNo
  | "device sno" => some .deviceSerialNo
  | "operatingsystem" => some .operatingSystem
  | "operating system" => some .operatingSystem
  | "os" => some .operatingSystem
  | "dateofpurchase" => some .dateOfPurchase
  | "date of purchase" => some .dateOfPurchase
  | "purchase date" => some .dateOfPurchase
  | "purchasedate" => some .dateOfPurchase
  | "purchase_date" => some .dateOfPurchase
  | "purchased on" => some .dateOfPurchase
  | "date" => some .dateOfPurchase
  | "bought on" => some .dateOfPurchase
  | "acquisition date" => some .dateOfPurchase
  | "purchase" => some .dateOfPurchase
  | "remark" => some .remark
  | "remarks" => some .remark
  | "notes" => some .remark
  | "comment" => some .remark
  | "comments" => some .remark
  | "description" => some .remark
  | "status" => some .status
  | "state" => some .status
  | "condition" => some .status
  | _ => none

/-- The `DEVICES` enum of `asset.validator.js` (nine categories). -/
def DEVICES : List String :=
  ["Desktop", "Laptop", "Tablet", "Monitor", "Printer", "Scanner", "Server",
   "Network Device", "Other"]

/-- The `validDevices` list of `uploadExcel` — the enum of the validator
extended with the placeholder token. -/
def validDevices : List String :=
  ["Desktop", "Laptop", "Tablet", "Monitor", "Printer", "Scanner", "Server",
   "Network Device", "Other", "NA"]

/-- Value held in the `dateOfPurchase` slot right after column mapping: a
real date (passed through or parsed), JS `null` (failed parse), or the empty
string (a falsy cell stored by the generic text branch). -/
inductive DP where
  | ts (t : Timestamp)
  | nullv
  | emptyStr
deriving DecidableEq, Repr

/-- The partially-built asset object after the `Object.keys(row).forEach`
column-mapping loop of `uploadExcel`: absent slots are `none`. -/
structure Mapped where
  serialNumber : Option Cell := none
  companyName : Option Cell := none
  branch : Option Cell := none
  department : Option Cell := none
  userName : Option Cell := none
  brand : Option Cell := none
  device : Option Cell := none
  deviceSerialNo : Option Cell := none
  operatingSystem : Option Cell := none
  remark : Option Cell := none
  status : Option Cell := none
  dateOfPurchase : Option DP := none
deriving DecidableEq, Repr

/-- `typeof value === 'string' ? value.trim() : value`. -/
def setTextCell : Cell → Cell
  | .str s => .str (trimStr s)
  | .date t => .date t

/-- The date-conversion branch of the mapping loop: a truthy `Date` passes
through, a truthy string is parsed (`new Date(value)`, embedded as the
`parseDate` parameter) with failures stored as `null`, and a falsy (empty
string) value falls into the generic text branch. -/
def dateValue (parseDate : String → Option Timestamp) : Cell → DP
  | .date t => .ts t
  | .str "" => .emptyStr
  | .str s => match parseDate s with
    | some t => .ts t
    | none => .nullv

/-- One iteration of the mapping loop: normalize the header, look it up in
the alias table, and store the coerced value (later pairs overwrite earlier
ones, as JS property assignment does). -/
def applyPair (parseDate : String → Option Timestamp) (m : Mapped)
    (kv : String × Cell) : Mapped :=
  match columnMap (trimStr (lowerStr kv.1)) with
  | none => m
  | some .dateOfPurchase => { m with dateOfPurchase := some (dateValue parseDate kv.2) }
  | some .serialNumber => { m with serialNumber := some (setTextCell kv.2) }
  | some .companyName => { m with companyName := some (setTextCell kv.2) }
  | some .branch => { m with branch := some (setTextCell kv.2) }
  | some .department => { m with department := some (setTextCell kv.2) }
  | some .userName => { m with userName := some (setTextCell kv.2) }
  | some .brand => { m with brand := some (setTextCell kv.2) }
  | some .device => { m with device := some (setTextCell kv.2) }
  | some .deviceSerialNo => { m with deviceSerialNo := some (setTextCell kv.2) }
  | some .operatingSystem => { m with operatingSystem := some (setTextCell kv.2) }
  | some .remark => { m with remark := some (setTextCell kv.2) }
  | some .status => { m with status := some (setTextCell kv.2) }

/-- The whole column-mapping loop over one raw row. -/
def mapRow (parseDate : String → Option Timestamp) (row : RawRow) : Mapped :=
  row.foldl (applyPair parseDate) {}

/-- `if (!asset[field] || asset[field] === '') asset[field] = dflt` — the
defaulting pattern used for the nine text fields (`dflt = 'NA'`) and for
`status` (`dflt = 'Active'`).  Among modelled cells exactly the absent value
and the empty string are falsy. -/
def jsDefault (c : Option Cell) (dflt : String) : Cell :=
  match c with
  | none => .str dflt
  | some c => if c = .str "" then .str dflt else c

/-- The device-normalization block of `uploadExcel`: a truthy device value is
matched case-insensitively against `validDevices` and replaced by the matched
canonical spelling or `'Other'`; the (dead) falsy branch sets `'Other'`.  On
a `Date` value the source throws (`.toLowerCase` is not a function), which
aborts the whole request — modelled as `none`. -/
def normalizeDevice : Cell → Option Cell
  | .date _ => none
  | .str ds =>
    some (if ds = "" then .str "Other"
      else .str ((validDevices.find? (fun d => lowerStr d == lowerStr ds)).getD "Other"))

/-- A normalized asset record as handed to `insertMany` by `uploadExcel`.
The transient `_rowIndex` diagnostic is deleted before insertion and never
reaches the store or the report, so it is not modelled. -/
structure Asset where
  createdBy : String
  serialNumber : Cell
  companyName : Cell
  branch : Cell
  department : Cell
  userName : Cell
  brand : Cell
  device : Cell
  deviceSerialNo : Cell
  operatingSystem : Cell
  remark : Cell
  status : Cell
  dateOfPurchase : Option Timestamp
deriving DecidableEq, Repr

/-- Is the mapped serial number absent, empty, or the placeholder token —
the condition under which `uploadExcel` synthesizes a serial? -/
def serialAbsent (m : Mapped) : Bool :=
  match m.serialNumber with
  | none => true
  | some (.str "") => true
  | some (.str "NA") => true
  | some _ => false

/-- The Row Normalizer: the body of the `rawData.map((row, index) => ...)`
callback of `uploadExcel`.  `now` stands for the `new Date()` calls made
while processing this row; `none` models the `TypeError` thrown when the
device slot holds a non-string value. -/
def normalizeRow (createdBy : String) (parseDate : String → Option Timestamp)
    (now : Timestamp) (index : Nat) (row : RawRow) : Option Asset :=
  let m := mapRow parseDate row
  match normalizeDevice (jsDefault m.device "NA") with
  | none => none
  | some dev =>
    some {
      createdBy := createdBy
      serialNumber :=
        if serialAbsent m then .str (genSerial now index)
        else (m.serialNumber.getD (.str ""))
      companyName := jsDefault m.companyName "NA"
      branch := jsDefault m.branch "NA"
      department := jsDefault m.department "NA"
      userName := jsDefault m.userName "NA"
      brand := jsDefault m.brand "NA"
      device := dev
      deviceSerialNo := jsDefault m.deviceSerialNo "NA"
      operatingSystem := jsDefault m.operatingSystem "NA"
      remark := jsDefault m.remark "NA"
      status := jsDefault m.status "Active"
      dateOfPurchase := some (match m.dateOfPurchase with
        | some (.ts t) => t
        | _ => now)
    }

/-- The Row Filter predicate of `uploadExcel`: at least one of the seven
listed fields is truthy, not the placeholder, and not empty. -/
def hasData (a : Asset) : Bool :=
  [a.companyName, a.branch, a.department, a.userName, a.brand, a.device,
   a.deviceSerialNo].any
    (fun c => truthy c && !(c == Cell.str "NA") && !(c == Cell.str ""))

/-- Does the device slot of a mapped row hold anything other than a `Date`
(so that normalization does not throw)? -/
def devOk (m : Mapped) : Bool :=
  match m.device with
  | some (.date _) => false
  | _ => true

/-- One element of `err.writeErrors` as produced by an unordered
`insertMany`.  An absent `errmsg` is modelled as the empty string. -/
structure WriteErr where
  index : Nat
  errmsg : String
  message : String
deriving DecidableEq, Repr

/-- A thrown JS error object, with the properties the pipeline inspects:
the partial-result payload of a Mongo bulk-write error (`insertedDocs`,
`writeErrors`) and the fields read by the generic error middleware. -/
structure JsError (α : Type) where
  insertedDocs : Option (List α) := none
  writeErrors : Option (List WriteErr) := none
  statusCode : Option Nat := none
  name : String := ""
  code : Option Nat := none
  message : String := ""
  keyValue : List String := []
  errorMessages : List String := []
deriving DecidableEq, Repr

/-- Outcome of one `Asset.insertMany(batch, { ordered: false })` call:
normal return of the inserted documents, or a thrown error. -/
inductive InsertOutcome (α : Type) where
  | ok (docs : List α)
  | exn (e : JsError α)
deriving DecidableEq, Repr

/-- Status computation of the generic error middleware
(`error.middleware`): `err.statusCode || 500`, then the Mongoose special
cases, applied in source order. -/
def errorStatus {α : Type} (e : JsError α) : Nat :=
  let s0 := match e.statusCode with
    | some s => if s = 0 then 500 else s
    | none => 500
  let s1 := if e.name = "CastError" then 400 else s0
  let s2 := if e.code = some 11000 then 409 else s1
  if e.name = "ValidationError" then 400 else s2

/-- Message computation of the generic error middleware, in source order. -/
def errorMessage {α : Type} (e : JsError α) : String :=
  let m0 := if e.message = "" then "Server Error" else e.message
  let m1 := if e.name = "CastError" then "Invalid ID format" else m0
  let m2 := if e.code = some 11000 then "Duplicate: " ++ e.keyValue.headD "" else m1
  if e.name = "ValidationError" then String.intercalate ", " e.errorMessages else m2

/-- The `DEVICE_TYPES` enum of the Asset model (`assetSchema`): the device
categories extended with the placeholder, as declared on the `device` path. -/
def DEVICE_TYPES : List String :=
  ["Desktop", "Laptop", "Tablet", "Monitor", "Printer", "Scanner", "Server",
   "Network Device", "Other", "NA"]

/-- The `STATUS_TYPES` enum of the Asset model (`assetSchema`). -/
def STATUS_TYPES : List String :=
  ["Active", "Inactive", "Under Maintenance", "Disposed", "Lost"]

/-- Hexadecimal digit test, for the ObjectId cast. -/
def isHexDigit (c : Char) : Bool :=
  (48 ≤ c.toNat && c.toNat ≤ 57) || (97 ≤ c.toNat && c.toNat ≤ 102) ||
    (65 ≤ c.toNat && c.toNat ≤ 70)

/-- Can a string be cast to a Mongoose `ObjectId` (the `createdBy` path)?  A
string casts when it is 24 hexadecimal characters — the form every real user
id takes in this system. -/
def isObjectIdStr (s : String) : Bool :=
  s.length == 24 && s.data.all isHexDigit

/-- Mongoose `String` cast of a cell value: strings pass through; a `Date`
landing in a string path is cast to its string form (the exact text of that
cast is immaterial to the pipeline — only its string-ness matters, and no
claim exercises it). -/
def castString : Cell → String
  | .str s => s
  | .date t => isoString t

/-- A string path with the `trim: true` setter (companyName, branch,
department, userName, brand, deviceSerialNo, operatingSystem, remark,
serialNumber in `assetSchema`). -/
def strField (c : Cell) : String := trimStr (castString c)

/-- A string path with both `trim: true` and `uppercase: true` setters
(`serialNumber`, `deviceSerialNo`). -/
def upperField (c : Cell) : String := upperStr (trimStr (castString c))

/-- The serial key under which the store's unique index files a record:
`serialNumber` is declared `trim: true, uppercase: true` in `assetSchema`,
so surrounding whitespace is stripped and the result uppercased before the
index sees it. -/
def serialKey (a : Asset) : String := upperField a.serialNumber

/-- The Asset-model setters applied to a document on insertion, path by path
from `assetSchema`: `trim` on the plain text paths, `trim` + `uppercase` on
`serialNumber` and `deviceSerialNo`, a bare string cast on `device` and
`status` (no setters declared there).  Path defaults are not modelled: the
pipeline's records always carry every path, so no default ever fires;
`isDeleted` and the `timestamps` bookkeeping are server-side fields the
pipeline never reads. -/
def applySetters (a : Asset) : Asset :=
  { a with
    serialNumber := .str (upperField a.serialNumber)
    companyName := .str (strField a.companyName)
    branch := .str (strField a.branch)
    department := .str (strField a.department)
    userName := .str (strField a.userName)
    brand := .str (strField a.brand)
    device := .str (castString a.device)
    deviceSerialNo := .str (upperField a.deviceSerialNo)
    operatingSystem := .str (strField a.operatingSystem)
    remark := .str (strField a.remark)
    status := .str (castString a.status) }

/-- Document validation of the Asset model, from `assetSchema`: a required
non-empty `serialNumber`; `device` restricted to `DEVICE_TYPES`; `status`
restricted to `STATUS_TYPES`; `remark` at most 500 characters (after the
trim setter); `createdBy` a required value castable to `ObjectId`.
Validation runs after the setters, as in Mongoose. -/
def validDoc (a : Asset) : Bool :=
  !(upperField a.serialNumber == "") &&
  DEVICE_TYPES.contains (castString a.device) &&
  STATUS_TYPES.contains (castString a.status) &&
  (strField a.remark).length ≤ 500 &&
  isObjectIdStr a.createdBy

/-- The error text attached to a document that fails the Asset model's
validation (a Mongoose `ValidationError`; the pipeline only ever tests error
texts for the substring `duplicate`, which this one does not contain). -/
def validationErrmsg : String := "Asset validation failed"

/-- The Mongo duplicate-key error text attached to a write error rejected by
the unique `serialNumber` index (an `E11000` message; per the spec's store
contract the pipeline only tests it for the substring `duplicate`). -/
def dupErrmsg : String :=
  "E11000 duplicate key error collection: assets index: serialNumber_1"

/-- The asset store's unordered bulk insert, embedded from the Asset model
(`assetSchema`) plus the spec's store-collaborator contract for the driver:
every element is attempted in order; a document failing schema validation is
reported and skipped; a valid document whose serial key is already filed
under the unique index is reported as a duplicate; other valid documents are
persisted with their setters applied.  Failures never block later elements
(`ordered: false`), and `existing` is the set of serial keys already
persisted. -/
def mongoInsertGo (existing : List String) (idx : Nat) :
    List Asset → List Asset × List WriteErr
  | [] => ([], [])
  | a :: rest =>
    if validDoc a = false then
      let r := mongoInsertGo existing (idx + 1) rest
      (r.1, ⟨idx, validationErrmsg, validationErrmsg⟩ :: r.2)
    else if serialKey a ∈ existing then
      let r := mongoInsertGo existing (idx + 1) rest
      (r.1, ⟨idx, dupErrmsg, dupErrmsg⟩ :: r.2)
    else
      let r := mongoInsertGo (serialKey a :: existing) (idx + 1) rest
      (applySetters a :: r.1, r.2)

/-- One `insertMany(batch, { ordered: false })` against a store whose
persisted serial keys are `existing`. -/
def mongoInsertMany (existing : List String) (batch : List Asset) :
    List Asset × List WriteErr :=
  mongoInsertGo existing 0 batch

/-- One entry of `results.errors` in `uploadExcel`. -/
structure ExcelErr where
  serialNumber : Option Cell
  message : String
deriving DecidableEq, Repr

/-- The write-error mapping of the `uploadExcel` batch loop:
`serialNumber: batch[e.index]?.serialNumber`, and duplicate-key texts
rewritten to the fixed human-readable message. -/
def mapWriteError (batch : List Asset) (e : WriteErr) : ExcelErr :=
  { serialNumber := (batch.get? e.index).map Asset.serialNumber
    message := if strContains e.errmsg "duplicate" then "Duplicate serial number"
      else e.errmsg }

/-- `validAssets.slice(i, i + batchSize)` chunking, with fuel (the list
length suffices for any positive chunk size). -/
def chunksGo (n : Nat) : Nat → List Asset → List (List Asset)
  | 0, _ => []
  | _, [] => []
  | fuel + 1, l => l.take n :: chunksGo n fuel (l.drop n)

/-- Partition the filtered rows into batches of `n` (500 in the source). -/
def chunksOf (n : Nat) (l : List Asset) : List (List Asset) :=
  chunksGo n l.length l

/-- The batch-insertion loop of `uploadExcel`: each batch is submitted in
order; a normal return appends to the inserted accumulator, a thrown error
contributes its `insertedDocs` and mapped `writeErrors` when present — an
error carrying neither (an unexpected store failure) contributes nothing and
the loop continues. -/
def runBatches (store : Nat → List Asset → InsertOutcome Asset) :
    Nat → List (List Asset) → List Asset × List ExcelErr
  | _, [] => ([], [])
  | i, b :: rest =>
    let step := match store i b with
      | .ok ins => (ins, ([] : List ExcelErr))
      | .exn e => (e.insertedDocs.getD [], (e.writeErrors.getD []).map (mapWriteError b))
    let r := runBatches store (i + 1) rest
    (step.1 ++ r.1, step.2 ++ r.2)

/-- The success report of the spreadsheet endpoint. -/
structure ExcelReport where
  totalRows : Nat
  created : Nat
  failed : Nat
  skippedEmptyRows : Nat
  insertErrors : List ExcelErr
deriving DecidableEq, Repr

/-- The `data` part of the spreadsheet endpoint's response envelope. -/
inductive UploadData where
  | nul
  | noValid (detectedHeaders : List String) (msg : String) (expectedColumns : List String)
  | report (r : ExcelReport)
deriving DecidableEq, Repr

/-- Is the response data a numeric import report? -/
def UploadData.isReport : UploadData → Bool
  | .report _ => true
  | _ => false

/-- The `{ success, data, message }` envelope sent by the `send` helper
(success is determined by the status, so it is not stored separately). -/
structure UploadResponse where
  status : Nat
  data : UploadData
  message : String
deriving DecidableEq, Repr

/-- The fixed explanatory message of the all-rows-empty 400 body. -/
def allRowsEmptyMsg : String :=
  "All rows appear to be empty. Make sure your Excel has data in at least one of these columns."

/-- The `expectedColumns` list of the all-rows-empty 400 body. -/
def expectedColumnsList : List String :=
  ["companyName", "branch", "department", "userName", "brand", "device",
   "deviceSerialNo", "dateOfPurchase", "operatingSystem", "remark", "status"]

/-- The `TypeError` thrown when `.toLowerCase()` is called on a non-string
device value during normalization. -/
def typeErrorDevice : JsError Asset :=
  { name := "TypeError", message := "asset.device.toLowerCase is not a function" }

/-- The catch handler of `uploadExcel`: password-protected files get a
dedicated 400, everything else goes to the generic error middleware. -/
def uploadCatch (e : JsError Asset) : UploadResponse :=
  if strContains e.message "Encrypted" then
    ⟨400, .nul, "Cannot read password-protected Excel files"⟩
  else ⟨errorStatus e, .nul, errorMessage e⟩

/-- `rawData.map((row, index) => ...)` with the running index. -/
def mapIdxGo {α β : Type} (f : Nat → α → β) : Nat → List α → List β
  | _, [] => []
  | i, a :: rest => f i a :: mapIdxGo f (i + 1) rest

/-- Collect a list of optional results, failing if any element failed (the
first thrown `TypeError` aborts the whole `map` in the source). -/
def seqOptions {α : Type} : List (Option α) → Option (List α)
  | [] => some []
  | none :: _ => none
  | some a :: rest => (seqOptions rest).map (a :: ·)

/-- The spreadsheet import endpoint `POST /assets/upload-excel`
(`uploadExcel`).  Environment inputs are parameters: `parsed` is the result
of `XLSX.read` + `sheet_to_json` (`Except` for a throwing parse),
`parseDate` embeds `new Date(string)`, `nowAt i` the `new Date()` calls made
while processing row `i`, and `store i b` the `insertMany` call for the
`i`-th batch `b`. -/
def uploadExcel (filePresent : Bool) (createdBy : String)
    (parsed : Except (JsError Asset) (List RawRow))
    (parseDate : String → Option Timestamp) (nowAt : Nat → Timestamp)
    (store : Nat → List Asset → InsertOutcome Asset) : UploadResponse :=
  if !filePresent then ⟨400, .nul, "Please upload an Excel file"⟩
  else if createdBy = "" then ⟨400, .nul, "createdBy (user ID) is required"⟩
  else match parsed with
  | .error e => uploadCatch e
  | .ok rawData =>
    if rawData.length = 0 then ⟨400, .nul, "Excel file is empty"⟩
    else if rawData.length > 5000 then ⟨400, .nul, "Maximum 5000 records allowed per file"⟩
    else match seqOptions
        (mapIdxGo (fun i row => normalizeRow createdBy parseDate (nowAt i) i row) 0 rawData) with
    | none => uploadCatch typeErrorDevice
    | some assets =>
      let validAssets := assets.filter hasData
      if validAssets.length = 0 then
        ⟨400, .noValid ((rawData.headD []).map Prod.fst) allRowsEmptyMsg expectedColumnsList,
          "No valid records found. Check that your Excel has data."⟩
      else
        let res := runBatches store 0 (chunksOf 500 validAssets)
        ⟨201,
          .report ⟨rawData.length, res.1.length, res.2.length,
            rawData.length - validAssets.length, res.2.take 50⟩,
          "Excel processed: " ++ Nat.repr res.1.length ++ " created, " ++
            Nat.repr res.2.length ++ " failed"⟩

/-- An element of the JSON bulk endpoint's `assets` array: an arbitrary
object of which the endpoint only reads and rewrites `createdBy`; the other
properties are carried opaquely (as an association list) into the store. -/
structure BulkAsset where
  rest : List (String × String)
  createdBy : Option String
deriving DecidableEq, Repr

/-- The `data` part of the JSON bulk endpoint's response envelope; `errors`
entries are `{ index, message }` pairs. -/
inductive BulkData where
  | noData
  | report (created : Nat) (failed : Nat) (assets : List BulkAsset)
      (errors : List (Nat × String))
deriving DecidableEq, Repr

/-- The response envelope of the JSON bulk endpoint. -/
structure BulkResponse where
  status : Nat
  data : BulkData
  message : String
deriving DecidableEq, Repr

/-- The JSON bulk endpoint `POST /assets/bulk` (`bulkCreateAssets`).
`assets?` is `none` when the body's `assets` is missing or not an array;
a missing `createdBy` is the empty string.  The second component of the
result is the record list actually handed to `insertMany` (empty when
validation rejected the request).  A thrown store error without
`insertedDocs` is rethrown and lands in the generic error middleware. -/
def bulkCreateAssets (assets? : Option (List BulkAsset)) (createdBy : String)
    (store : List BulkAsset → InsertOutcome BulkAsset) :
    BulkResponse × List BulkAsset :=
  match assets? with
  | none => (⟨400, .noData, "Provide an array of assets"⟩, [])
  | some assets =>
    if assets.length = 0 then (⟨400, .noData, "Provide an array of assets"⟩, [])
    else if assets.length > 1000 then
      (⟨400, .noData, "Maximum 1000 assets allowed per batch"⟩, [])
    else if createdBy = "" then
      (⟨400, .noData, "createdBy (user ID) is required"⟩, [])
    else
      let withCreator := assets.map (fun a => { a with createdBy := some createdBy })
      let outcome := store withCreator
      match outcome with
      | .ok docs =>
        (⟨201, .report docs.length 0 docs [],
          Nat.repr docs.length ++ " assets created, 0 failed"⟩, withCreator)
      | .exn e =>
        match e.insertedDocs with
        | some ins =>
          let errs := e.writeErrors.getD []
          (⟨201,
            .report ins.length errs.length ins
              (errs.map (fun w => (w.index, if w.errmsg ≠ "" then w.errmsg else w.message))),
            Nat.repr ins.length ++ " assets created, " ++ Nat.repr errs.length ++ " failed"⟩,
           withCreator)
        | none => (⟨errorStatus e, .noData, errorMessage e⟩, withCreator)

/-! ### Helper lemmas -/

theorem string_eq_of_data {s t : String} (h : s.data = t.data) : s = t := by
  cases s; cases t; simp_all

/-- Numeric value of a big-endian decimal digit string. -/
def valOfBE (l : List Char) : Nat := l.foldl (fun a c => 10 * a + (c.toNat - 48)) 0

theorem valOfBE_append_singleton (l : List Char) (c : Char) :
    valOfBE (l ++ [c]) = 10 * valOfBE l + (c.toNat - 48) := by
  simp [valOfBE, List.foldl_append]

theorem digitChar_val {d : Nat} (h : d < 10) : (digitChar d).toNat - 48 = d := by
  interval_cases d <;> rfl

theorem valOfBE_digitsBEGo : ∀ fuel n, n < fuel → valOfBE (digitsBEGo fuel n) = n := by
  intro fuel
  induction fuel with
  | zero => intro n h; omega
  | succ fuel ih =>
    intro n h
    by_cases h10 : n < 10
    · simp [digitsBEGo, h10, valOfBE, digitChar_val h10]
    · have hdiv : n / 10 < fuel := by
        have := Nat.div_lt_self (by omega : 0 < n) (by omega : 1 < 10)
        omega
      simp only [digitsBEGo, if_neg h10]
      rw [valOfBE_append_singleton, ih _ hdiv, digitChar_val (Nat.mod_lt n (by omega))]
      omega

theorem valOfBE_digitsBE (n : Nat) : valOfBE (digitsBE n) = n :=
  valOfBE_digitsBEGo (n + 1) n (Nat.lt_succ_self n)

theorem valOfBE_replicate_zero_append (k : Nat) (l : List Char) :
    valOfBE (List.replicate k '0' ++ l) = valOfBE l := by
  induction k with
  | zero => rfl
  | succ k ih => simpa [valOfBE, List.replicate_succ] using ih

theorem valOfBE_padNum (w n : Nat) : valOfBE (padNum w n).data = n := by
  show valOfBE (List.replicate (w - (digitsBE n).length) '0' ++ digitsBE n) = n
  rw [valOfBE_replicate_zero_append, valOfBE_digitsBE]

theorem padNum_inj {w n m : Nat} (h : padNum w n = padNum w m) : n = m := by
  have := congrArg (fun s => valOfBE s.data) h
  simpa [valOfBE_padNum] using this

theorem digitsBEGo_length_le :
    ∀ fuel n k, n < fuel → 1 ≤ k → n < 10 ^ k → (digitsBEGo fuel n).length ≤ k := by
  intro fuel
  induction fuel with
  | zero => intro n k h; omega
  | succ fuel ih =>
    intro n k h hk hn
    by_cases h10 : n < 10
    · simpa [digitsBEGo, h10] using hk
    · have hk2 : 2 ≤ k := by
        by_contra hcon
        have : k = 1 := by omega
        subst this; simp at hn; omega
      have hdiv : n / 10 < fuel := by
        have := Nat.div_lt_self (by omega : 0 < n) (by omega : 1 < 10)
        omega
      have hpow : n / 10 < 10 ^ (k - 1) := by
        have h1 : n < 10 ^ (k - 1) * 10 := by
          have : 10 ^ (k - 1) * 10 = 10 ^ k := by
            have : k - 1 + 1 = k := by omega
            calc 10 ^ (k - 1) * 10 = 10 ^ (k - 1 + 1) := by ring
              _ = 10 ^ k := by rw [this]
          omega
        exact Nat.div_lt_of_lt_mul (by omega)
      have := ih (n / 10) (k - 1) hdiv (by omega) hpow
      simp only [digitsBEGo, if_neg h10, List.length_append, List.length_singleton]
      omega

theorem digitsBE_length_le {n k : Nat} (hk : 1 ≤ k) (hn : n < 10 ^ k) :
    (digitsBE n).length ≤ k :=
  digitsBEGo_length_le (n + 1) n k (Nat.lt_succ_self n) hk hn

theorem padNum_data_length {w n : Nat} (hw : 1 ≤ w) (hn : n < 10 ^ w) :
    (padNum w n).data.length = w := by
  show (List.replicate (w - (digitsBE n).length) '0' ++ digitsBE n).length = w
  have := digitsBE_length_le hw hn
  simp [List.length_append, List.length_replicate]
  omega

theorem padNum_length {w n : Nat} (hw : 1 ≤ w) (hn : n < 10 ^ w) :
    (padNum w n).length = w :=
  padNum_data_length hw hn

theorem padNum_length_two {n : Nat} (hn : n < 100) : (padNum 2 n).length = 2 :=
  padNum_length (by omega) (lt_of_lt_of_eq hn (by norm_num))

theorem padNum_length_four {n : Nat} (hn : n < 10000) : (padNum 4 n).length = 4 :=
  padNum_length (by omega) (lt_of_lt_of_eq hn (by norm_num))

theorem dateStr_data_length {t : Timestamp} (hv : t.Valid) :
    (dateStr t).data.length = 8 := by
  obtain ⟨h1, h2, h3, _, _, _⟩ := hv
  simp [dateStr, String.data_append, List.length_append,
    padNum_length_four h1, padNum_length_two h2, padNum_length_two h3]

theorem timeStr_data_length {t : Timestamp} (hv : t.Valid) :
    (timeStr t).data.length = 6 := by
  obtain ⟨_, _, _, h4, h5, h6⟩ := hv
  simp [timeStr, String.data_append, List.length_append,
    padNum_length_two h4, padNum_length_two h5, padNum_length_two h6]

theorem genSerial_data (t : Timestamp) (i : Nat) :
    (genSerial t i).data =
      ("IT-".data ++ (dateStr t).data ++ "-".data ++ (timeStr t).data ++ "-".data) ++
        (padNum 4 (i + 1)).data := by
  simp [genSerial, String.data_append, List.append_assoc]

theorem genSerial_inj {t1 t2 : Timestamp} {i j : Nat}
    (hv1 : t1.Valid) (hv2 : t2.Valid) (h : genSerial t1 i = genSerial t2 j) : i = j := by
  have hd := congrArg String.data h
  rw [genSerial_data, genSerial_data] at hd
  have hlen :
      ("IT-".data ++ (dateStr t1).data ++ "-".data ++ (timeStr t1).data ++ "-".data).length =
      ("IT-".data ++ (dateStr t2).data ++ "-".data ++ (timeStr t2).data ++ "-".data).length := by
    simp [List.length_append, dateStr_data_length hv1, dateStr_data_length hv2,
      timeStr_data_length hv1, timeStr_data_length hv2]
  have hpad := (List.append_inj hd hlen).2
  have : padNum 4 (i + 1) = padNum 4 (j + 1) := string_eq_of_data hpad
  have := padNum_inj this
  omega

theorem length_filter_split {α : Type} (l : List α) (p : α → Bool) :
    (l.filter p).length + (l.filter (fun x => !p x)).length = l.length := by
  induction l with
  | nil => rfl
  | cons a l ih => by_cases h : p a <;> simp [List.filter, h, ← ih] <;> omega

theorem seqOptions_length {α : Type} :
    ∀ (l : List (Option α)) (r : List α), seqOptions l = some r → l.length = r.length := by
  intro l
  induction l with
  | nil => intro r h; simp [seqOptions] at h; simp [h]
  | cons a l ih =>
    intro r h
    cases a with
    | none => simp [seqOptions] at h
    | some v =>
      simp [seqOptions] at h
      obtain ⟨w, hw, rfl⟩ := h
      simp [ih w hw]

theorem mapIdxGo_length {α β : Type} (f : Nat → α → β) :
    ∀ (i : Nat) (l : List α), (mapIdxGo f i l).length = l.length := by
  intro i l
  induction l generalizing i with
  | nil => rfl
  | cons a l ih => simp [mapIdxGo, ih]

theorem mongoInsertGo_congr :
    ∀ (b : List Asset) (e1 e2 : List String) (idx : Nat),
      (∀ a ∈ b, (serialKey a ∈ e1 ↔ serialKey a ∈ e2)) →
      mongoInsertGo e1 idx b = mongoInsertGo e2 idx b := by
  intro b
  induction b with
  | nil => intro e1 e2 idx _; rfl
  | cons a rest ih =>
    intro e1 e2 idx h
    have ha := h a (by simp)
    have hrest : ∀ x ∈ rest, (serialKey x ∈ e1 ↔ serialKey x ∈ e2) :=
      fun x hx => h x (by simp [hx])
    by_cases hv : validDoc a = false
    · simp only [mongoInsertGo, if_pos hv]
      rw [ih e1 e2 (idx + 1) hrest]
    · by_cases hm : serialKey a ∈ e1
      · have hm2 : serialKey a ∈ e2 := ha.mp hm
        simp only [mongoInsertGo, if_neg hv, if_pos hm, if_pos hm2]
        rw [ih e1 e2 (idx + 1) hrest]
      · have hm2 : serialKey a ∉ e2 := fun hc => hm (ha.mpr hc)
        have hrest2 : ∀ x ∈ rest, (serialKey x ∈ serialKey a :: e1 ↔ serialKey x ∈ serialKey a :: e2) := by
          intro x hx
          simp only [List.mem_cons]
          exact or_congr Iff.rfl (hrest x hx)
        simp only [mongoInsertGo, if_neg hv, if_neg hm, if_neg hm2]
        rw [ih (serialKey a :: e1) (serialKey a :: e2) (idx + 1) hrest2]

theorem mongoInsertGo_spec :
    ∀ (b : List Asset), (∀ a ∈ b, validDoc a = true) → (b.map serialKey).Nodup →
      ∀ (existing : List String) (idx : Nat),
        (mongoInsertGo existing idx b).1 =
            (b.filter (fun a => !(decide (serialKey a ∈ existing)))).map applySetters ∧
        (mongoInsertGo existing idx b).2.length =
            (b.filter (fun a => decide (serialKey a ∈ existing))).length ∧
        ∀ w ∈ (mongoInsertGo existing idx b).2, w.errmsg = dupErrmsg := by
  intro b
  induction b with
  | nil => intro _ _ existing idx; refine ⟨rfl, rfl, by simp [mongoInsertGo]⟩
  | cons a rest ih =>
    intro hval hnd existing idx
    have hva : ¬ validDoc a = false := by simp [hval a (by simp)]
    have hval' : ∀ x ∈ rest, validDoc x = true := fun x hx => hval x (by simp [hx])
    rw [List.map_cons] at hnd
    obtain ⟨hnot, hnd'⟩ := List.nodup_cons.mp hnd
    by_cases hm : serialKey a ∈ existing
    · obtain ⟨ih1, ih2, ih3⟩ := ih hval' hnd' existing (idx + 1)
      refine ⟨?_, ?_, ?_⟩
      · simpa [mongoInsertGo, if_neg hva, if_pos hm, List.filter, hm] using ih1
      · simpa [mongoInsertGo, if_neg hva, if_pos hm, List.filter, hm] using ih2
      · intro w hw
        simp only [mongoInsertGo, if_neg hva, if_pos hm, List.mem_cons] at hw
        rcases hw with rfl | hw
        · rfl
        · exact ih3 w hw
    · have hcongr : mongoInsertGo (serialKey a :: existing) (idx + 1) rest =
          mongoInsertGo existing (idx + 1) rest := by
        apply mongoInsertGo_congr
        intro x hx
        have hne : serialKey x ≠ serialKey a := by
          intro hc
          exact hnot (hc ▸ List.mem_map_of_mem serialKey hx)
        simp [List.mem_cons, hne]
      obtain ⟨ih1, ih2, ih3⟩ := ih hval' hnd' existing (idx + 1)
      refine ⟨?_, ?_, ?_⟩
      · simp only [mongoInsertGo, if_neg hva, if_neg hm, hcongr]
        simpa [List.filter, hm] using congrArg (applySetters a :: ·) ih1
      · simpa [mongoInsertGo, if_neg hva, if_neg hm, hcongr, List.filter, hm] using ih2
      · intro w hw
        simp only [mongoInsertGo, if_neg hva, if_neg hm, hcongr] at hw
        exact ih3 w hw

theorem runBatches_fatal (store : Nat → List Asset → InsertOutcome Asset)
    (h : ∀ i b, ∃ e, store i b = .exn e ∧ e.insertedDocs = none ∧ e.writeErrors = none) :
    ∀ (i : Nat) (chunks : List (List Asset)), runBatches store i chunks = ([], []) := by
  intro i chunks
  induction chunks generalizing i with
  | nil => rfl
  | cons b rest ih =>
    obtain ⟨e, he, h1, h2⟩ := h i b
    simp [runBatches, he, h1, h2, ih (i + 1)]

/-- The retention condition of a single cell in the Row Filter, spelled as a
proposition: not the placeholder and not empty. -/
def meaningful (c : Cell) : Prop := c ≠ Cell.str "NA" ∧ c ≠ Cell.str ""

theorem cell_test_iff (c : Cell) :
    (truthy c && !(c == Cell.str "NA") && !(c == Cell.str "")) = true ↔ meaningful c := by
  cases c with
  | str s =>
    by_cases h : s = "" <;> by_cases h2 : s = "NA" <;>
      simp_all [truthy, meaningful]
  | date t => simp [truthy, meaningful]

theorem hasData_iff (a : Asset) :
    hasData a = true ↔
      (meaningful a.companyName ∨ meaningful a.branch ∨ meaningful a.department ∨
       meaningful a.userName ∨ meaningful a.brand ∨ meaningful a.device ∨
       meaningful a.deviceSerialNo) := by
  simp only [hasData, List.any_cons, List.any_nil, Bool.or_eq_true, Bool.or_false]
  rw [cell_test_iff, cell_test_iff, cell_test_iff, cell_test_iff, cell_test_iff,
    cell_test_iff, cell_test_iff]

theorem normalizeDevice_some {m : Mapped} (h : devOk m = true) :
    ∃ d, normalizeDevice (jsDefault m.device "NA") = some d := by
  cases hm : m.device with
  | none => exact ⟨_, rfl⟩
  | some c =>
    cases c with
    | str s =>
      by_cases hs : s = ""
      · subst hs; exact ⟨_, rfl⟩
      · exact ⟨Cell.str ((validDevices.find? (fun d => lowerStr d == lowerStr s)).getD "Other"),
          by simp [jsDefault, hm, hs, normalizeDevice]⟩
    | date t => simp [devOk, hm] at h

theorem normalizeRow_some {createdBy : String} {parseDate : String → Option Timestamp}
    {now : Timestamp} {index : Nat} {row : RawRow}
    (h : devOk (mapRow parseDate row) = true) :
    ∃ a, normalizeRow createdBy parseDate now index row = some a := by
  obtain ⟨d, hd⟩ := normalizeDevice_some h
  simp only [normalizeRow]
  rw [hd]
  exact ⟨_, rfl⟩

theorem normalizeRow_unfold (createdBy : String) (parseDate : String → Option Timestamp)
    (now : Timestamp) (index : Nat) (row : RawRow) (dev : Cell)
    (hd : normalizeDevice (jsDefault (mapRow parseDate row).device "NA") = some dev) :
    normalizeRow createdBy parseDate now index row = some {
      createdBy := createdBy
      serialNumber :=
        if serialAbsent (mapRow parseDate row) then .str (genSerial now index)
        else ((mapRow parseDate row).serialNumber.getD (.str ""))
      companyName := jsDefault (mapRow parseDate row).companyName "NA"
      branch := jsDefault (mapRow parseDate row).branch "NA"
      department := jsDefault (mapRow parseDate row).department "NA"
      userName := jsDefault (mapRow parseDate row).userName "NA"
      brand := jsDefault (mapRow parseDate row).brand "NA"
      device := dev
      deviceSerialNo := jsDefault (mapRow parseDate row).deviceSerialNo "NA"
      operatingSystem := jsDefault (mapRow parseDate row).operatingSystem "NA"
      remark := jsDefault (mapRow parseDate row).remark "NA"
      status := jsDefault (mapRow parseDate row).status "Active"
      dateOfPurchase := some (match (mapRow parseDate row).dateOfPurchase with
        | some (.ts t) => t
        | _ => now) } := by
  simp only [normalizeRow]
  rw [hd]

theorem jsDefault_ne_empty {c : Option Cell} {dflt : String} (h : dflt ≠ "") :
    jsDefault c dflt ≠ Cell.str "" := by
  cases c with
  | none => simp [jsDefault, h]
  | some c' =>
    by_cases hc : c' = Cell.str "" <;> simp [jsDefault, hc, h]

theorem normalizeDevice_ne_empty {c : Cell} {d : Cell} (h : normalizeDevice c = some d) :
    d ≠ Cell.str "" := by
  cases c with
  | date t => simp [normalizeDevice] at h
  | str ds =>
    by_cases hs : ds = ""
    · subst hs
      simp [normalizeDevice] at h
      simp [← h]
    · simp only [normalizeDevice, if_neg hs, Option.some_inj] at h
      cases hf : validDevices.find? (fun d => lowerStr d == lowerStr ds) with
      | none => rw [hf] at h; simp [← h]
      | some f =>
        rw [hf] at h
        have hmem := List.mem_of_find?_eq_some hf
        have hall : ∀ x ∈ validDevices, x ≠ "" := by decide
        simp [← h, hall f hmem]

/-- A device value taken from the `validDevices` list (which ends in the
canonical `'Other'` fallback and the placeholder)? -/
def devInList : Option Cell → Bool
  | some (.str d) => validDevices.contains d
  | _ => false

theorem normalizeDevice_in_list {c : Cell} {d : Cell} (h : normalizeDevice c = some d) :
    devInList (some d) = true := by
  cases c with
  | date t => simp [normalizeDevice] at h
  | str ds =>
    by_cases hs : ds = ""
    · subst hs
      simp [normalizeDevice] at h
      simp [← h, devInList, validDevices]
    · simp only [normalizeDevice, if_neg hs, Option.some_inj] at h
      cases hf : validDevices.find? (fun d => lowerStr d == lowerStr ds) with
      | none => rw [hf] at h; simp [← h, devInList, validDevices]
      | some f =>
        rw [hf] at h
        have hmem := List.mem_of_find?_eq_some hf
        simp only [← h, devInList, Option.getD_some]
        exact List.elem_eq_true_of_mem hmem

/-- Shared concrete fixture: a fixed wall-clock instant. -/
def ts2026 : Timestamp := ⟨2026, 1, 2, 3, 4, 5⟩

/-- Shared concrete fixture: a date parser that fails on every string. -/
def pdNone : String → Option Timestamp := fun _ => none

/-- Shared concrete fixture: a schema-valid normalized record with the given
serial number (the creator is a 24-hex ObjectId string, as the model
requires). -/
def mkAsset (sn : String) : Asset :=
  { createdBy := "64a1b2c3d4e5f6a7b8c9d0e1", serialNumber := .str sn,
    companyName := .str "C", branch := .str "NA", department := .str "NA",
    userName := .str "NA", brand := .str "NA", device := .str "Other",
    deviceSerialNo := .str "NA", operatingSystem := .str "NA",
    remark := .str "NA", status := .str "Active", dateOfPurchase := some ts2026 }

/-! ### Claim C2 — device-field normalization -/

/-- C2, counterexample: an absent device cell does **not** normalize to
`"Other"` — after the NA-defaulting step the device slot holds `"NA"`, which
is itself an element of `validDevices` and therefore survives the
case-insensitive match; and `"NA"` is not a case-insensitive match of any
element of the validator's `DEVICES` enum. -/
theorem c2_counterexample :
    (normalizeRow "u1" pdNone ts2026 0 []).map Asset.device = some (Cell.str "NA") ∧
    Cell.str "NA" ≠ Cell.str "Other" ∧
    DEVICES.all (fun d => !(lowerStr d == lowerStr "NA")) = true :=
  ⟨by decide, by decide, by decide⟩

/-- C2 (amended): for every input row whose mapped device value is not a
date, normalization is total — the row is never rejected, the resulting
device is the canonical spelling of an element of `validDevices` (the
`DEVICES` enum extended with the placeholder `"NA"`) or `"Other"`, it is the
output of the case-insensitive matcher, and an absent or empty device cell
yields `"NA"` (not `"Other"`); the result is never null. -/
theorem c2_device_normalization_total (createdBy : String)
    (parseDate : String → Option Timestamp) (now : Timestamp) (index : Nat)
    (row : RawRow) (hdev : devOk (mapRow parseDate row) = true) :
    (normalizeRow createdBy parseDate now index row).isSome = true ∧
    (normalizeRow createdBy parseDate now index row).map Asset.device =
      normalizeDevice (jsDefault (mapRow parseDate row).device "NA") ∧
    devInList ((normalizeRow createdBy parseDate now index row).map Asset.device) = true ∧
    (((mapRow parseDate row).device = none ∨
        (mapRow parseDate row).device = some (Cell.str "")) →
      (normalizeRow createdBy parseDate now index row).map Asset.device =
        some (Cell.str "NA")) := by
  obtain ⟨dev, hd⟩ := normalizeDevice_some hdev
  rw [normalizeRow_unfold createdBy parseDate now index row dev hd]
  refine ⟨rfl, ?_, ?_, ?_⟩
  · rw [hd]; rfl
  · simpa using normalizeDevice_in_list hd
  · intro h
    have hNA : jsDefault (mapRow parseDate row).device "NA" = Cell.str "NA" := by
      rcases h with h | h <;> rw [h] <;> rfl
    rw [hNA] at hd
    have : dev = Cell.str "NA" := by
      have hcomp : normalizeDevice (Cell.str "NA") = some (Cell.str "NA") := by decide
      rw [hcomp] at hd
      exact (Option.some_inj.mp hd).symm
    simp [this]

/-- C2 witness: the amended theorem applied to a row with device `"laptop"`
and to a row with no device column. -/
theorem c2_witness :
    (normalizeRow "u1" pdNone ts2026 0 [("device", Cell.str "laptop")]).isSome = true ∧
    devInList ((normalizeRow "u1" pdNone ts2026 0
      [("device", Cell.str "laptop")]).map Asset.device) = true ∧
    (normalizeRow "u1" pdNone ts2026 1 []).map Asset.device = some (Cell.str "NA") := by
  have h1 := c2_device_normalization_total "u1" pdNone ts2026 0
    [("device", Cell.str "laptop")] (by decide)
  have h2 := c2_device_normalization_total "u1" pdNone ts2026 1 [] (by decide)
  exact ⟨h1.1, h1.2.2.1, h2.2.2.2 (Or.inl (by decide))⟩

/-! ### Claim C3 — date-of-purchase parsing -/

/-- C3, counterexample: a date cell that fails parsing does **not** leave a
null date-of-purchase in the output row — the intermediate null is falsy, so
the absent-date default overwrites it with the current timestamp. -/
theorem c3_counterexample :
    (mapRow pdNone [("date of purchase", Cell.str "not-a-date")]).dateOfPurchase =
      some DP.nullv ∧
    (normalizeRow "u1" pdNone ts2026 0
      [("date of purchase", Cell.str "not-a-date")]).map Asset.dateOfPurchase =
      some (some ts2026) ∧
    (some (some ts2026) : Option (Option Timestamp)) ≠ some none :=
  ⟨by decide, by decide, by decide⟩

/-- C3 (amended): a date-of-purchase cell that fails date parsing (stored as
null by the mapping step), like an absent or empty one, yields the current
timestamp in the output row — never null, and never a pipeline failure. -/
theorem c3_date_fallback (createdBy : String) (parseDate : String → Option Timestamp)
    (now : Timestamp) (index : Nat) (row : RawRow)
    (hdev : devOk (mapRow parseDate row) = true)
    (hdate : (mapRow parseDate row).dateOfPurchase = some DP.nullv ∨
      (mapRow parseDate row).dateOfPurchase = none ∨
      (mapRow parseDate row).dateOfPurchase = some DP.emptyStr) :
    (normalizeRow createdBy parseDate now index row).map Asset.dateOfPurchase =
      some (some now) ∧
    (normalizeRow createdBy parseDate now index row).map Asset.dateOfPurchase ≠
      some none := by
  obtain ⟨dev, hd⟩ := normalizeDevice_some hdev
  rw [normalizeRow_unfold createdBy parseDate now index row dev hd]
  rcases hdate with h | h | h <;> rw [h] <;> exact ⟨rfl, by simp⟩

/-- C3 witness: the amended theorem applied to the unparseable-cell input. -/
theorem c3_witness :
    (normalizeRow "u1" pdNone ts2026 0
      [("date of purchase", Cell.str "not-a-date")]).map Asset.dateOfPurchase =
      some (some ts2026) ∧
    (normalizeRow "u1" pdNone ts2026 0
      [("date of purchase", Cell.str "not-a-date")]).map Asset.dateOfPurchase ≠
      some none :=
  c3_date_fallback "u1" pdNone ts2026 0 [("date of purchase", Cell.str "not-a-date")]
    (by decide) (Or.inl (by decide))

/-! ### Claim C4 — text-field trimming and placeholder defaults -/

/-- C4, counterexample: the device field is not always the trimmed cell
value — the mapped (trimmed) cell `"laptop"` comes out as the canonical
enum spelling `"Laptop"`. -/
theorem c4_counterexample :
    (mapRow pdNone [("device", Cell.str "laptop")]).device = some (Cell.str "laptop") ∧
    (normalizeRow "u1" pdNone ts2026 0 [("device", Cell.str "laptop")]).map Asset.device =
      some (Cell.str "Laptop") ∧
    Cell.str "Laptop" ≠ Cell.str "laptop" :=
  ⟨by decide, by decide, by decide⟩

/-- C4 (amended): for every row whose mapped device value is not a date, the
normalized row exists and carries all nine text fields non-empty; the eight
non-device text fields equal the mapped value (string cells are trimmed
during mapping) or the placeholder `"NA"` when absent or empty, while the
device field additionally passes through the enum matcher and may therefore
differ from the trimmed cell value. -/
theorem c4_text_field_defaults (createdBy : String)
    (parseDate : String → Option Timestamp) (now : Timestamp) (index : Nat)
    (row : RawRow) (hdev : devOk (mapRow parseDate row) = true) :
    (normalizeRow createdBy parseDate now index row).isSome = true ∧
    (normalizeRow createdBy parseDate now index row).map Asset.companyName =
      some (jsDefault (mapRow parseDate row).companyName "NA") ∧
    (normalizeRow createdBy parseDate now index row).map Asset.branch =
      some (jsDefault (mapRow parseDate row).branch "NA") ∧
    (normalizeRow createdBy parseDate now index row).map Asset.department =
      some (jsDefault (mapRow parseDate row).department "NA") ∧
    (normalizeRow createdBy parseDate now index row).map Asset.userName =
      some (jsDefault (mapRow parseDate row).userName "NA") ∧
    (normalizeRow createdBy parseDate now index row).map Asset.brand =
      some (jsDefault (mapRow parseDate row).brand "NA") ∧
    (normalizeRow createdBy parseDate now index row).map Asset.deviceSerialNo =
      some (jsDefault (mapRow parseDate row).deviceSerialNo "NA") ∧
    (normalizeRow createdBy parseDate now index row).map Asset.operatingSystem =
      some (jsDefault (mapRow parseDate row).operatingSystem "NA") ∧
    (normalizeRow createdBy parseDate now index row).map Asset.remark =
      some (jsDefault (mapRow parseDate row).remark "NA") ∧
    (normalizeRow createdBy parseDate now index row).map Asset.device =
      normalizeDevice (jsDefault (mapRow parseDate row).device "NA") ∧
    (normalizeRow createdBy parseDate now index row).map
      (fun a => [a.companyName, a.branch, a.department, a.userName, a.brand,
        a.device, a.deviceSerialNo, a.operatingSystem, a.remark].all
          (fun c => !(c == Cell.str ""))) = some true := by
  obtain ⟨dev, hd⟩ := normalizeDevice_some hdev
  rw [normalizeRow_unfold createdBy parseDate now index row dev hd]
  have hna : ("NA" : String) ≠ "" := by decide
  refine ⟨rfl, rfl, rfl, rfl, rfl, rfl, rfl, rfl, rfl, by rw [hd]; rfl, ?_⟩
  simp [jsDefault_ne_empty hna, normalizeDevice_ne_empty hd]

/-- C4 witness: the amended theorem applied to a row with a padded company
cell, an empty branch cell, and a lowercase device cell. -/
theorem c4_witness :
    (normalizeRow "u1" pdNone ts2026 0
      [("company", Cell.str "  Acme "), ("branch", Cell.str ""),
       ("device", Cell.str "laptop")]).isSome = true ∧
    (normalizeRow "u1" pdNone ts2026 0
      [("company", Cell.str "  Acme "), ("branch", Cell.str ""),
       ("device", Cell.str "laptop")]).map Asset.companyName =
      some (jsDefault (mapRow pdNone
        [("company", Cell.str "  Acme "), ("branch", Cell.str ""),
         ("device", Cell.str "laptop")]).companyName "NA") ∧
    (normalizeRow "u1" pdNone ts2026 0
      [("company", Cell.str "  Acme "), ("branch", Cell.str ""),
       ("device", Cell.str "laptop")]).map
      (fun a => [a.companyName, a.branch, a.department, a.userName, a.brand,
        a.device, a.deviceSerialNo, a.operatingSystem, a.remark].all
          (fun c => !(c == Cell.str ""))) = some true := by
  have h := c4_text_field_defaults "u1" pdNone ts2026 0
    [("company", Cell.str "  Acme "), ("branch", Cell.str ""),
     ("device", Cell.str "laptop")] (by decide)
  exact ⟨h.1, h.2.1, h.2.2.2.2.2.2.2.2.2.2⟩

/-! ### Claim C5 — synthesized serial numbers -/

/-- C5: when the mapped serial number is absent, empty, or the placeholder
token, the Row Normalizer synthesizes `IT-<YYYYMMDD>-<HHMMSS>-<NNNN>` from
the row's timestamp and 1-based index (4-digit zero-padded under the 5000-row
cap), and two distinct row indices of the same import always receive
distinct serial strings, whatever their timestamps. -/
theorem c5_serial_synthesis (createdBy : String)
    (parseDate : String → Option Timestamp) (nowAt : Nat → Timestamp)
    (i j : Nat) (rowi rowj : RawRow)
    (hdevi : devOk (mapRow parseDate rowi) = true)
    (hdevj : devOk (mapRow parseDate rowj) = true)
    (hsi : serialAbsent (mapRow parseDate rowi) = true)
    (hsj : serialAbsent (mapRow parseDate rowj) = true)
    (hvi : (nowAt i).Valid) (hvj : (nowAt j).Valid) (hij : i ≠ j) :
    (normalizeRow createdBy parseDate (nowAt i) i rowi).map Asset.serialNumber =
      some (.str (genSerial (nowAt i) i)) ∧
    (normalizeRow createdBy parseDate (nowAt j) j rowj).map Asset.serialNumber =
      some (.str (genSerial (nowAt j) j)) ∧
    genSerial (nowAt i) i =
      "IT-" ++ dateStr (nowAt i) ++ "-" ++ timeStr (nowAt i) ++ "-" ++ padNum 4 (i + 1) ∧
    (dateStr (nowAt i)).length = 8 ∧ (timeStr (nowAt i)).length = 6 ∧
    (i < 5000 → (padNum 4 (i + 1)).length = 4) ∧
    genSerial (nowAt i) i ≠ genSerial (nowAt j) j := by
  obtain ⟨devi, hdi⟩ := normalizeDevice_some hdevi
  obtain ⟨devj, hdj⟩ := normalizeDevice_some hdevj
  rw [normalizeRow_unfold createdBy parseDate (nowAt i) i rowi devi hdi,
    normalizeRow_unfold createdBy parseDate (nowAt j) j rowj devj hdj]
  refine ⟨?_, ?_, rfl, dateStr_data_length hvi, timeStr_data_length hvi, ?_, ?_⟩
  · simp [if_pos hsi]
  · simp [if_pos hsj]
  · intro h5
    exact padNum_length_four (by omega)
  · intro hcon
    exact hij (genSerial_inj hvi hvj hcon)

/-- C5 witness: two serial-less rows at indices 0 and 1, both stamped at the
same instant, receive distinct synthesized serials. -/
theorem c5_witness :
    (normalizeRow "u1" pdNone ts2026 0 []).map Asset.serialNumber =
      some (.str (genSerial ts2026 0)) ∧
    (normalizeRow "u1" pdNone ts2026 1 []).map Asset.serialNumber =
      some (.str (genSerial ts2026 1)) ∧
    (dateStr ts2026).length = 8 ∧ (padNum 4 1).length = 4 ∧
    genSerial ts2026 0 ≠ genSerial ts2026 1 := by
  have h := c5_serial_synthesis "u1" pdNone (fun _ => ts2026) 0 1 [] []
    (by decide) (by decide) (by decide) (by decide) (by decide) (by decide)
    (by decide)
  exact ⟨h.1, h.2.1, h.2.2.2.1, h.2.2.2.2.2.1 (by decide), h.2.2.2.2.2.2⟩

/-! ### Claim C1 — batch partial failure and duplicate-message rewriting -/

/-- C1: in a batch of size `B` of schema-valid documents with pairwise
distinct serial keys, exactly one of which duplicates a record already in
the store, the unordered bulk insert persists exactly `B - 1` records and
reports exactly one error entry, whose mapped message is the fixed
`"Duplicate serial number"` (the store's duplicate text contains
`duplicate`), while write errors whose text does not contain `duplicate` —
such as the Asset model's validation failures — pass through verbatim. -/
theorem c1_batch_partial_failure (existing : List String) (batch : List Asset)
    (B : Nat) (hB : batch.length = B)
    (hval : ∀ a ∈ batch, validDoc a = true)
    (hnd : (batch.map serialKey).Nodup)
    (hone : (batch.filter (fun a => decide (serialKey a ∈ existing))).length = 1) :
    (mongoInsertMany existing batch).1.length = B - 1 ∧
    ((mongoInsertMany existing batch).2.map (mapWriteError batch)).length = 1 ∧
    ((mongoInsertMany existing batch).2.map (mapWriteError batch)).all
      (fun er => er.message == "Duplicate serial number") = true ∧
    ∀ w : WriteErr, strContains w.errmsg "duplicate" = false →
      (mapWriteError batch w).message = w.errmsg := by
  obtain ⟨h1, h2, h3⟩ := mongoInsertGo_spec batch hval hnd existing 0
  have hsplit : (batch.filter (fun a => decide (serialKey a ∈ existing))).length +
      (batch.filter (fun a => !(decide (serialKey a ∈ existing)))).length =
      batch.length := length_filter_split batch _
  refine ⟨?_, ?_, ?_, ?_⟩
  · show (mongoInsertGo existing 0 batch).1.length = B - 1
    rw [h1, List.length_map]
    omega
  · show ((mongoInsertGo existing 0 batch).2.map (mapWriteError batch)).length = 1
    rw [List.length_map, h2, hone]
  · rw [List.all_eq_true]
    intro er her
    obtain ⟨w, hw, rfl⟩ := List.mem_map.mp her
    have hmsg := h3 w hw
    have hdup : strContains dupErrmsg "duplicate" = true := by decide
    simp [mapWriteError, hmsg, hdup]
  · intro w hw
    simp [mapWriteError, hw]

/-- C1 witness: the theorem applied to a two-row batch of schema-valid
documents whose first serial collides (case-insensitively, after the trim
setter) with the store, plus the raw pass-through of a non-duplicate error
text (the shape of the model's validation failures). -/
theorem c1_witness :
    (mongoInsertMany ["S1"] [mkAsset " s1 ", mkAsset "S2"]).1.length = 2 - 1 ∧
    ((mongoInsertMany ["S1"] [mkAsset " s1 ", mkAsset "S2"]).2.map
      (mapWriteError [mkAsset " s1 ", mkAsset "S2"])).length = 1 ∧
    ((mongoInsertMany ["S1"] [mkAsset " s1 ", mkAsset "S2"]).2.map
      (mapWriteError [mkAsset " s1 ", mkAsset "S2"])).all
      (fun er => er.message == "Duplicate serial number") = true ∧
    (mapWriteError [mkAsset " s1 ", mkAsset "S2"]
      ⟨0, validationErrmsg, validationErrmsg⟩).message = validationErrmsg := by
  have h := c1_batch_partial_failure ["S1"] [mkAsset " s1 ", mkAsset "S2"] 2
    (by decide) (by decide) (by decide) (by decide)
  exact ⟨h.1, h.2.1, h.2.2.1,
    h.2.2.2 ⟨0, validationErrmsg, validationErrmsg⟩ (by decide)⟩

/-! ### Claim C6 — Row Filter retention and the skipped-rows count -/

/-- C6: the Row Filter retains a normalized row exactly when one of the
seven listed fields holds something other than the placeholder and the empty
string, and in the success report the skipped-empty-rows counter equals the
number of normalized rows failing that test (all of which are dropped before
insertion — only the retained rows reach the batch loop). -/
theorem c6_row_filter (a : Asset) (createdBy : String) (rows : List RawRow)
    (parseDate : String → Option Timestamp) (nowAt : Nat → Timestamp)
    (store : Nat → List Asset → InsertOutcome Asset) (as : List Asset)
    (hcb : createdBy ≠ "") (hne : rows.length ≠ 0) (hle : ¬ rows.length > 5000)
    (hseq : seqOptions (mapIdxGo
      (fun i row => normalizeRow createdBy parseDate (nowAt i) i row) 0 rows) = some as)
    (hval : (as.filter hasData).length ≠ 0) :
    (hasData a = true ↔
      (meaningful a.companyName ∨ meaningful a.branch ∨ meaningful a.department ∨
       meaningful a.userName ∨ meaningful a.brand ∨ meaningful a.device ∨
       meaningful a.deviceSerialNo)) ∧
    uploadExcel true createdBy (.ok rows) parseDate nowAt store =
      ⟨201,
        .report ⟨rows.length,
          (runBatches store 0 (chunksOf 500 (as.filter hasData))).1.length,
          (runBatches store 0 (chunksOf 500 (as.filter hasData))).2.length,
          (as.filter (fun x => !(hasData x))).length,
          (runBatches store 0 (chunksOf 500 (as.filter hasData))).2.take 50⟩,
        "Excel processed: " ++
          Nat.repr (runBatches store 0 (chunksOf 500 (as.filter hasData))).1.length ++
          " created, " ++
          Nat.repr (runBatches store 0 (chunksOf 500 (as.filter hasData))).2.length ++
          " failed"⟩ := by
  have hlen : rows.length = as.length := by
    have h1 := mapIdxGo_length
      (fun i row => normalizeRow createdBy parseDate (nowAt i) i row) 0 rows
    have h2 := seqOptions_length _ _ hseq
    omega
  have hsplit : (as.filter hasData).length +
      (as.filter (fun x => !(hasData x))).length = as.length :=
    length_filter_split as hasData
  have hskip : rows.length - (as.filter hasData).length =
      (as.filter (fun x => !(hasData x))).length := by omega
  refine ⟨hasData_iff a, ?_⟩
  simp [uploadExcel, hcb, hne, hle, hseq, hval, hskip]

/-- Shared concrete fixture: the normalized record of the single-cell row
`company = "Acme"` at index 0 (used by pipeline witnesses). -/
def acmeAsset : Asset :=
  { createdBy := "u1", serialNumber := .str (genSerial ts2026 0),
    companyName := .str "Acme", branch := .str "NA", department := .str "NA",
    userName := .str "NA", brand := .str "NA", device := .str "NA",
    deviceSerialNo := .str "NA", operatingSystem := .str "NA",
    remark := .str "NA", status := .str "Active", dateOfPurchase := some ts2026 }

/-- C6 witness: the theorem applied to a one-row spreadsheet with real data,
with the response evaluated. -/
theorem c6_witness :
    (hasData (mkAsset "X") = true ↔
      (meaningful (mkAsset "X").companyName ∨ meaningful (mkAsset "X").branch ∨
       meaningful (mkAsset "X").department ∨ meaningful (mkAsset "X").userName ∨
       meaningful (mkAsset "X").brand ∨ meaningful (mkAsset "X").device ∨
       meaningful (mkAsset "X").deviceSerialNo)) ∧
    uploadExcel true "u1" (.ok [[("company", Cell.str "Acme")]]) pdNone
      (fun _ => ts2026) (fun _ b => .ok b) =
      ⟨201, .report ⟨1, 1, 0, 0, []⟩, "Excel processed: 1 created, 0 failed"⟩ := by
  have h := c6_row_filter (mkAsset "X") "u1" [[("company", Cell.str "Acme")]]
    pdNone (fun _ => ts2026) (fun _ b => .ok b) [acmeAsset]
    (by decide) (by decide) (by decide) (by decide) (by decide)
  refine ⟨h.1, ?_⟩
  rw [h.2]
  decide

/-! ### Claim C7 — JSON bulk endpoint contract -/

/-- The input-rejection condition of the JSON bulk endpoint. -/
def badBulkInput (assets? : Option (List BulkAsset)) (createdBy : String) : Prop :=
  assets? = none ∨ assets?.getD [] = [] ∨ (assets?.getD []).length > 1000 ∨
    createdBy = ""

/-- Does the bulk response body carry `created`, `failed`, `assets` and
`errors` with the counts matching the lists? -/
def BulkData.shapeOk : BulkData → Bool
  | .report c f docs errs => c == docs.length && f == errs.length
  | .noData => false

/-- C7: provided the store call does not throw a result-free error, the JSON
bulk endpoint responds 400 — with nothing handed to the store — exactly when
`assets` is missing/empty/not an array, exceeds 1000 entries, or `createdBy`
is missing; otherwise it responds 201 with a body carrying `created`,
`failed`, `assets` and `errors` entries of the shape index/message. -/
theorem c7_bulk_endpoint (assets? : Option (List BulkAsset)) (createdBy : String)
    (store : List BulkAsset → InsertOutcome BulkAsset)
    (hnf : ∀ e, store ((assets?.getD []).map
        (fun a => { a with createdBy := some createdBy })) = .exn e →
      e.insertedDocs ≠ none) :
    (badBulkInput assets? createdBy ↔
      ((bulkCreateAssets assets? createdBy store).1.status = 400 ∧
       (bulkCreateAssets assets? createdBy store).2 = [])) ∧
    (¬ badBulkInput assets? createdBy →
      (bulkCreateAssets assets? createdBy store).1.status = 201 ∧
      ((bulkCreateAssets assets? createdBy store).1).data.shapeOk = true) := by
  cases assets? with
  | none =>
    refine ⟨⟨fun _ => ⟨rfl, rfl⟩, fun _ => Or.inl rfl⟩, fun hbad => ?_⟩
    exact absurd (Or.inl rfl) hbad
  | some l =>
    by_cases h0 : l.length = 0
    · have hl : l = [] := List.length_eq_zero.mp h0
      subst hl
      refine ⟨⟨fun _ => ⟨rfl, rfl⟩, fun _ => Or.inr (Or.inl rfl)⟩, fun hbad => ?_⟩
      exact absurd (Or.inr (Or.inl rfl)) hbad
    · by_cases h1k : l.length > 1000
      · have hres : bulkCreateAssets (some l) createdBy store =
            (⟨400, .noData, "Maximum 1000 assets allowed per batch"⟩, []) := by
          simp only [bulkCreateAssets, if_neg h0, if_pos h1k]
        constructor
        · constructor
          · intro _
            exact ⟨by rw [hres], by rw [hres]⟩
          · intro _
            exact Or.inr (Or.inr (Or.inl h1k))
        · intro hbad
          exact absurd (Or.inr (Or.inr (Or.inl h1k))) hbad
      · by_cases hcb : createdBy = ""
        · have hres : bulkCreateAssets (some l) createdBy store =
              (⟨400, .noData, "createdBy (user ID) is required"⟩, []) := by
            simp only [bulkCreateAssets, if_neg h0, if_neg h1k, if_pos hcb]
          constructor
          · constructor
            · intro _
              exact ⟨by rw [hres], by rw [hres]⟩
            · intro _
              exact Or.inr (Or.inr (Or.inr hcb))
          · intro hbad
            exact absurd (Or.inr (Or.inr (Or.inr hcb))) hbad
        · have hbad : ¬ badBulkInput (some l) createdBy := by
            intro hb
            rcases hb with h | h | h | h
            · exact Option.noConfusion h
            · have h' : l = [] := by simpa using h
              exact h0 (by simp [h'])
            · exact h1k (by simpa using h)
            · exact hcb h
          have hgood : (bulkCreateAssets (some l) createdBy store).1.status = 201 ∧
              ((bulkCreateAssets (some l) createdBy store).1).data.shapeOk = true := by
            simp only [bulkCreateAssets, if_neg h0, if_neg h1k, if_neg hcb]
            cases hout : store (l.map (fun a => { a with createdBy := some createdBy })) with
            | ok docs => exact ⟨rfl, by simp [BulkData.shapeOk]⟩
            | exn e =>
              have hdocs := hnf e (by simpa using hout)
              cases hid : e.insertedDocs with
              | none => exact absurd hid hdocs
              | some ins =>
                simp [hid, BulkData.shapeOk]
          refine ⟨⟨fun hb => absurd hb hbad, fun hr => ?_⟩, fun _ => hgood⟩
          rw [hgood.1] at hr
          exact absurd hr.1 (by omega)

/-- C7 witness: the theorem applied to a well-formed one-element request
against a store that echoes its input. -/
theorem c7_witness :
    (bulkCreateAssets (some [⟨[("k", "v")], some "evil"⟩]) "u1"
      (fun l => .ok l)).1.status = 201 ∧
    ((bulkCreateAssets (some [⟨[("k", "v")], some "evil"⟩]) "u1"
      (fun l => .ok l)).1).data.shapeOk = true := by
  have h := c7_bulk_endpoint (some [⟨[("k", "v")], some "evil"⟩]) "u1"
    (fun l => .ok l) (fun e he => by cases he)
  exact h.2 (by simp [badBulkInput])

/-! ### Claim C8 — unexpected store failure -/

/-- C8, counterexample: in the spreadsheet variant an unexpected store
failure (a thrown error carrying neither `insertedDocs` nor `writeErrors`)
is swallowed by the per-batch catch — the request still answers 201 with a
partial report, not 500. -/
theorem c8_counterexample :
    uploadExcel true "u1" (.ok [[("company", Cell.str "Acme")]]) pdNone
      (fun _ => ts2026)
      (fun _ _ => .exn { name := "MongoNetworkError", message := "connect ECONNREFUSED" }) =
      ⟨201, .report ⟨1, 0, 0, 0, []⟩, "Excel processed: 0 created, 0 failed"⟩ ∧
    (201 : Nat) ≠ 500 ∧
    (UploadData.report ⟨1, 0, 0, 0, []⟩).isReport = true :=
  ⟨by decide, by decide, rfl⟩

/-- C8 (amended): in the JSON bulk variant an unexpected store failure (no
`insertedDocs`, no Mongoose classification) is rethrown to the generic error
middleware and surfaced as 500 with no report; in the spreadsheet variant the
per-batch catch swallows such failures — every batch contributes nothing and
the request still answers 201 with a zero-created report. -/
theorem c8_unexpected_failure (l : List BulkAsset) (createdBy : String)
    (bstore : List BulkAsset → InsertOutcome BulkAsset) (e : JsError BulkAsset)
    (hne : ¬ l.length = 0) (hlen : ¬ l.length > 1000) (hcb : ¬ createdBy = "")
    (hst : bstore (l.map (fun a => { a with createdBy := some createdBy })) = .exn e)
    (hdocs : e.insertedDocs = none) (hsc : e.statusCode = none)
    (hn1 : e.name ≠ "CastError") (hn2 : e.name ≠ "ValidationError")
    (hcode : e.code ≠ some 11000)
    (createdBy2 : String) (rows : List RawRow)
    (parseDate : String → Option Timestamp) (nowAt : Nat → Timestamp)
    (store : Nat → List Asset → InsertOutcome Asset) (as : List Asset)
    (hcb2 : createdBy2 ≠ "") (hne2 : rows.length ≠ 0) (hle2 : ¬ rows.length > 5000)
    (hseq : seqOptions (mapIdxGo
      (fun i row => normalizeRow createdBy2 parseDate (nowAt i) i row) 0 rows) = some as)
    (hval : (as.filter hasData).length ≠ 0)
    (hfatal : ∀ i b, ∃ e2, store i b = .exn e2 ∧
      e2.insertedDocs = none ∧ e2.writeErrors = none) :
    (bulkCreateAssets (some l) createdBy bstore).1.status = 500 ∧
    (bulkCreateAssets (some l) createdBy bstore).1.data = .noData ∧
    uploadExcel true createdBy2 (.ok rows) parseDate nowAt store =
      ⟨201, .report ⟨rows.length, 0, 0, rows.length - (as.filter hasData).length, []⟩,
        "Excel processed: 0 created, 0 failed"⟩ := by
  have hbulk : (bulkCreateAssets (some l) createdBy bstore).1 =
      ⟨errorStatus e, .noData, errorMessage e⟩ := by
    simp only [bulkCreateAssets, if_neg hne, if_neg hlen, if_neg hcb, hst, hdocs]
  have hstat : errorStatus e = 500 := by
    simp [errorStatus, hsc, hn1, hn2, hcode]
  refine ⟨by rw [hbulk]; exact hstat, by rw [hbulk], ?_⟩
  have hbatches := runBatches_fatal store hfatal 0 (chunksOf 500 (as.filter hasData))
  have hmsg : "Excel processed: " ++ Nat.repr 0 ++ " created, " ++ Nat.repr 0 ++
      " failed" = "Excel processed: 0 created, 0 failed" := by decide
  simp [uploadExcel, hcb2, hne2, hle2, hseq, hval, hbatches, hmsg]

/-- C8 witness: the amended theorem applied to a one-element bulk request
whose store throws a bare connectivity error, and a one-row spreadsheet whose
store throws a bare error on every batch. -/
theorem c8_witness :
    (bulkCreateAssets (some [⟨[("k", "v")], none⟩]) "u1"
      (fun _ => .exn { name := "MongoNetworkError", message := "connect ECONNREFUSED" })).1.status = 500 ∧
    (bulkCreateAssets (some [⟨[("k", "v")], none⟩]) "u1"
      (fun _ => .exn { name := "MongoNetworkError", message := "connect ECONNREFUSED" })).1.data = .noData ∧
    uploadExcel true "u1" (.ok [[("company", Cell.str "Acme")]]) pdNone
      (fun _ => ts2026) (fun _ _ => .exn {}) =
      ⟨201, .report ⟨1, 0, 0, 1 - ([acmeAsset].filter hasData).length, []⟩,
        "Excel processed: 0 created, 0 failed"⟩ := by
  have h := c8_unexpected_failure [⟨[("k", "v")], none⟩] "u1"
    (fun _ => .exn { name := "MongoNetworkError", message := "connect ECONNREFUSED" })
    { name := "MongoNetworkError", message := "connect ECONNREFUSED" }
    (by decide) (by decide) (by decide) rfl rfl rfl (by decide) (by decide)
    (by decide) "u1" [[("company", Cell.str "Acme")]] pdNone (fun _ => ts2026)
    (fun _ _ => .exn {}) [acmeAsset] (by decide) (by decide) (by decide)
    (by decide) (by decide) (fun i b => ⟨{}, rfl, rfl, rfl⟩)
  exact h

/-! ### Claim C9 — all rows blank -/

/-- C9, counterexample: when every row is blank the response is 400, but its
body is the detected-headers diagnostic, not a report — it carries no
`skippedEmptyRows` or `created` fields at all. -/
theorem c9_counterexample :
    (uploadExcel true "u1" (.ok [[("company", Cell.str "")]]) pdNone
      (fun _ => ts2026) (fun _ b => .ok b)).status = 400 ∧
    (uploadExcel true "u1" (.ok [[("company", Cell.str "")]]) pdNone
      (fun _ => ts2026) (fun _ b => .ok b)).data.isReport = false ∧
    uploadExcel true "u1" (.ok [[("company", Cell.str "")]]) pdNone
      (fun _ => ts2026) (fun _ b => .ok b) =
      ⟨400, .noValid ["company"] allRowsEmptyMsg expectedColumnsList,
        "No valid records found. Check that your Excel has data."⟩ :=
  ⟨by decide, by decide, by decide⟩

/-- C9 (amended): when the Row Filter retains nothing, the spreadsheet
endpoint answers 400 through the no-valid-records branch — zero rows are
retained, so nothing is ever inserted (the response does not depend on the
store at all) — but the 400 body lists the detected headers and expected
columns instead of carrying the numeric `skippedEmptyRows`/`created`
report. -/
theorem c9_all_blank (createdBy : String) (rows : List RawRow)
    (parseDate : String → Option Timestamp) (nowAt : Nat → Timestamp)
    (store store' : Nat → List Asset → InsertOutcome Asset) (as : List Asset)
    (hcb : createdBy ≠ "") (hne : rows.length ≠ 0) (hle : ¬ rows.length > 5000)
    (hseq : seqOptions (mapIdxGo
      (fun i row => normalizeRow createdBy parseDate (nowAt i) i row) 0 rows) = some as)
    (hval0 : (as.filter hasData).length = 0) :
    uploadExcel true createdBy (.ok rows) parseDate nowAt store =
      ⟨400, .noValid ((rows.headD []).map Prod.fst) allRowsEmptyMsg expectedColumnsList,
        "No valid records found. Check that your Excel has data."⟩ ∧
    (uploadExcel true createdBy (.ok rows) parseDate nowAt store).data.isReport = false ∧
    uploadExcel true createdBy (.ok rows) parseDate nowAt store =
      uploadExcel true createdBy (.ok rows) parseDate nowAt store' := by
  have h : ∀ st : Nat → List Asset → InsertOutcome Asset,
      uploadExcel true createdBy (.ok rows) parseDate nowAt st =
        ⟨400, .noValid ((rows.headD []).map Prod.fst) allRowsEmptyMsg
          expectedColumnsList,
          "No valid records found. Check that your Excel has data."⟩ := by
    intro st
    simp [uploadExcel, hcb, hne, hle, hseq, hval0]
  refine ⟨h store, ?_, ?_⟩
  · rw [h store]; rfl
  · rw [h store, h store']

/-- C9 witness: the amended theorem applied to a two-row spreadsheet blank in
every recognized column, under two different stores. -/
theorem c9_witness :
    uploadExcel true "u1" (.ok [[("company", Cell.str "")], [("branch", Cell.str "  ")]])
      pdNone (fun _ => ts2026) (fun _ b => .ok b) =
      ⟨400, .noValid ["company"] allRowsEmptyMsg expectedColumnsList,
        "No valid records found. Check that your Excel has data."⟩ ∧
    (uploadExcel true "u1" (.ok [[("company", Cell.str "")], [("branch", Cell.str "  ")]])
      pdNone (fun _ => ts2026) (fun _ b => .ok b)).data.isReport = false ∧
    uploadExcel true "u1" (.ok [[("company", Cell.str "")], [("branch", Cell.str "  ")]])
      pdNone (fun _ => ts2026) (fun _ b => .ok b) =
      uploadExcel true "u1" (.ok [[("company", Cell.str "")], [("branch", Cell.str "  ")]])
      pdNone (fun _ => ts2026) (fun _ _ => .exn {}) := by
  have h := c9_all_blank "u1" [[("company", Cell.str "")], [("branch", Cell.str "  ")]]
    pdNone (fun _ => ts2026) (fun _ b => .ok b) (fun _ _ => .exn {})
    [⟨"u1", .str (genSerial ts2026 0), .str "NA", .str "NA", .str "NA", .str "NA",
      .str "NA", .str "NA", .str "NA", .str "NA", .str "NA", .str "Active", some ts2026⟩,
     ⟨"u1", .str (genSerial ts2026 1), .str "NA", .str "NA", .str "NA", .str "NA",
      .str "NA", .str "NA", .str "NA", .str "NA", .str "NA", .str "Active", some ts2026⟩]
    (by decide) (by decide) (by decide) (by decide) (by decide)
  exact h

/-! ### Claim C10 — request-level creator overwrites element-level -/

/-- C10: when the JSON bulk request passes validation, the record list handed
to the store is exactly the input list with every element's `createdBy`
overwritten by the request-level value (all other properties preserved), so
every submitted record carries the request-level creator even if the element
supplied a different one. -/
theorem c10_createdBy_overwrite (assets : List BulkAsset) (createdBy : String)
    (store : List BulkAsset → InsertOutcome BulkAsset)
    (hne : ¬ assets.length = 0) (hlen : ¬ assets.length > 1000)
    (hcb : ¬ createdBy = "") :
    (bulkCreateAssets (some assets) createdBy store).2 =
      assets.map (fun a => { a with createdBy := some createdBy }) ∧
    ((bulkCreateAssets (some assets) createdBy store).2).all
      (fun a => a.createdBy == some createdBy) = true := by
  have hsub : (bulkCreateAssets (some assets) createdBy store).2 =
      assets.map (fun a => { a with createdBy := some createdBy }) := by
    simp only [bulkCreateAssets, if_neg hne, if_neg hlen, if_neg hcb]
    cases hout : store (assets.map (fun a => { a with createdBy := some createdBy })) with
    | ok docs => rfl
    | exn e =>
      obtain ⟨docs?, w, s, n, c, m, k, em⟩ := e
      cases docs? <;> rfl
  refine ⟨hsub, ?_⟩
  rw [hsub, List.all_eq_true]
  intro x hx
  obtain ⟨a, _, rfl⟩ := List.mem_map.mp hx
  simp

/-- C10 witness: the theorem applied to an element that supplies a different
creator, which the endpoint overwrites. -/
theorem c10_witness :
    (bulkCreateAssets (some [⟨[("k", "v")], some "evil"⟩]) "u1"
      (fun l => .ok l)).2 =
      ([⟨[("k", "v")], some "evil"⟩] : List BulkAsset).map
        (fun a => { a with createdBy := some "u1" }) ∧
    ((bulkCreateAssets (some [⟨[("k", "v")], some "evil"⟩]) "u1"
      (fun l => .ok l)).2).all (fun a => a.createdBy == some "u1") = true := by
  have h := c10_createdBy_overwrite [⟨[("k", "v")], some "evil"⟩] "u1"
    (fun l => .ok l) (by decide) (by decide) (by decide)
  exact h

end ITAssets
